import Mathlib

/-
Shallow embedding of the Flappy-Bird game (src/src/main.rs) for checking the
natural-language specification against the code.

Modelling conventions:
- Rust `i32` values are modelled as `ℤ` (no arithmetic in this program comes
  close to overflow), Rust `f32` values as `ℚ` (every literal involved --
  0.2, 2.0, 2.5, 0.5, 0.001, 75.0 -- and every operation performed on them is
  exact enough that the properties at issue are insensitive to f32 rounding).
- The Rust cast `as i32` on an `f32` truncates toward zero: `i32ofRat`.
- Rust `/` and `%` on `i32` truncate toward zero: `Int.tdiv` / `Int.tmod`.
- The external rendering backend (bracket_lib) is out of scope; of each
  `render` function only its game-state effect is modelled, plus, for the
  looping background, the colour sampled for each screen cell.
- `RandomNumberGenerator::range(lo, hi)` (external bracket_lib) is modelled by
  `randRange seed lo hi`, which realises the library's contract of returning a
  value in [lo, hi); the draw is abstracted by a `seed : ℕ` input threaded
  through every operation that can create an obstacle.
- `ctx.quitting` and the high-score file write are modelled as a `Bool` state
  field and a `Bool` event output respectively.
-/

/-- Rust `f32 as i32`: truncation toward zero. -/

def i32ofRat (q : ℚ) : ℤ := if 0 ≤ q then ⌊q⌋ else -⌊-q⌋

-- DEFAULT_PARAMETERS from the source.

def screen_width : ℤ := 120

def screen_height : ℤ := 80

def player_width : ℤ := 14

def player_height : ℤ := 14

def frame_duration : ℚ := 75.0

def obstacle_speed : ℚ := 0.5

def background_speed : ℚ := 0.001

inductive GameMode
| Menu
| Playing
| End
deriving DecidableEq

inductive BackgroundStyle
| Stars
| Clouds
| Mountains
deriving DecidableEq

inductive PlayerStyle
| Dragon
| Bird
| Duck
deriving DecidableEq

inductive MainMenuOption
| Main
| Background
| Player
| Obstacle
deriving DecidableEq

/-- Key events relevant to the game (bracket_lib `VirtualKeyCode`); `Other`
stands for every key the source's match arms ignore. -/
inductive Key
| Space
| Up
| Down
| Left
| Right
| Return
| Escape
| P
| M
| Q
| Other
deriving DecidableEq

structure Player where
  x : ℤ
  y : ℤ
  velocity : ℚ
deriving DecidableEq

structure Obstacle where
  x : ℚ
  gap_y : ℤ
  size : ℤ
  scored : Bool
deriving DecidableEq

structure MenuState where
  current_menu : MainMenuOption
  selected_option : ℤ
  in_submenu : Bool
deriving DecidableEq

structure Settings where
  background_style : BackgroundStyle
  player_style : PlayerStyle
  obstacle_distance : ℤ
deriving DecidableEq

/-- Model of bracket_lib `RandomNumberGenerator::range(lo, hi)`: an external
collaborator whose contract is to return a value in [lo, hi); the concrete
draw is abstracted by `seed`. -/
def randRange (seed : ℕ) (lo hi : ℤ) : ℤ := lo + (seed : ℤ) % (hi - lo)

def Player.new (x y : ℤ) : Player := { x := x, y := y, velocity := 0.0 }

/-- `Player::gravity_to_move`: if velocity < 2.0 it grows by 0.2; then
`y += velocity as i32` (truncation toward zero); then y is clamped to ≥ 0. -/
def Player.gravity_to_move (p : Player) : Player :=
  let velocity := if p.velocity < 2.0 then p.velocity + 0.2 else p.velocity
  let y := p.y + i32ofRat velocity
  { p with velocity := velocity, y := if y < 0 then 0 else y }

/-- `Player::flap`: sets velocity to -2.5 unconditionally. -/
def Player.flap (p : Player) : Player := { p with velocity := -2.5 }

/-- `Obstacle::new(x, score)`: gap centre drawn by `random.range(30, 60)`,
size = max(20, 40 - score / 2) with Rust truncating division. -/
def Obstacle.new (x : ℤ) (score : ℤ) (seed : ℕ) : Obstacle :=
  { x := (x : ℚ)
    gap_y := randRange seed 30 60
    size := max 20 (40 - Int.tdiv score 2)
    scored := false }

/-- State effect of `Obstacle::render`: x decreases by the obstacle speed
(the drawing calls are external). -/
def Obstacle.render (ob : Obstacle) : Obstacle := { ob with x := ob.x - obstacle_speed }

/-- `Obstacle::hit_obstacle(player)`, verbatim from the source. -/
def Obstacle.hit_obstacle (ob : Obstacle) (player : Player) : Bool :=
  let half_size := Int.tdiv ob.size 2
  let player_left_gap : Bool := player.x < i32ofRat ob.x
  let player_right_gap : Bool := player.x + player_width > i32ofRat ob.x
  let player_above_gap : Bool := player.y < ob.gap_y - half_size
  let player_below_gap : Bool := player.y + player_height > ob.gap_y + half_size
  (player_left_gap && player_right_gap) && (player_above_gap || player_below_gap)

/-- The collision predicate as the specification phrases it (for comparison
with `Obstacle.hit_obstacle`): the player's horizontal extent [x, x+14)
overlaps the obstacle's x column, AND the player's vertical extent [y, y+14)
is not fully contained within [gap_y - size/2, gap_y + size/2). -/
def specHit (ob : Obstacle) (player : Player) : Bool :=
  let col := i32ofRat ob.x
  let half_size := Int.tdiv ob.size 2
  ((player.x ≤ col ∧ col < player.x + player_width) ∧
    ¬ (ob.gap_y - half_size ≤ player.y ∧
       player.y + player_height ≤ ob.gap_y + half_size) : Prop)

/-- The collision predicate of the spec amended to match the source: the
horizontal-overlap condition is strict on the left, i.e. the obstacle's x
column must lie strictly between player.x and player.x + 14. -/
def specHitAmended (ob : Obstacle) (player : Player) : Bool :=
  let col := i32ofRat ob.x
  let half_size := Int.tdiv ob.size 2
  ((player.x < col ∧ col < player.x + player_width) ∧
    ¬ (ob.gap_y - half_size ≤ player.y ∧
       player.y + player_height ≤ ob.gap_y + half_size) : Prop)

/-- The top-level game state (`struct State`); the `texture` field (decoded
images, external collaborator) is omitted, and bracket_lib's `ctx.quitting`
flag is carried here so that the quit actions are observable. -/
structure State where
  player : Player
  frame_time : ℚ
  mode : GameMode
  score : ℤ
  obstacle_list : List Obstacle
  background_offset : ℚ
  distance : ℚ
  menu_state : MenuState
  settings : Settings
  high_score : ℤ
  quitting : Bool
deriving DecidableEq

/-- `State::new`; `high_score` is the value parsed from highscore.txt by the
external file read (0 when the file is missing or unparsable). -/
def State.new (seed : ℕ) (high_score : ℤ) : State :=
  { player := Player.new 2 25
    frame_time := 0
    mode := GameMode.Menu
    score := 0
    obstacle_list := [Obstacle.new screen_width 0 seed]
    background_offset := 0
    distance := 0
    menu_state := { current_menu := MainMenuOption.Main, selected_option := 0, in_submenu := false }
    settings := { background_style := BackgroundStyle.Mountains
                  player_style := PlayerStyle.Duck
                  obstacle_distance := 50 }
    high_score := high_score
    quitting := false }

/-- `State::update_background`: advance the offset by the background speed
times the elapsed milliseconds, wrapping once past the screen width. -/
def State.update_background (s : State) (frame_time_ms : ℚ) : State :=
  let off := s.background_offset + background_speed * frame_time_ms
  { s with background_offset :=
      if off > (screen_width : ℚ) then off - (screen_width : ℚ) else off }

/-- `State::restart`. -/
def State.restart (s : State) (seed : ℕ) : State :=
  { s with
    player := Player.new 2 25
    frame_time := 0
    mode := GameMode.Playing
    score := 0
    distance := 0
    obstacle_list := [Obstacle.new screen_width 0 seed]
    background_offset := 0 }

/-- One obstacle's share of the `Playing` loop body: `obstacle.render(ctx)`
moves it left by the obstacle speed, then the scoring check
`player.x > obstacle.x as i32 && !obstacle.scored` marks it scored and bumps
the score. -/
def obstacleStep (px : ℤ) (ob : Obstacle) (score : ℤ) : Obstacle × ℤ :=
  let obM := ob.render
  if px > i32ofRat obM.x ∧ obM.scored = false then
    ({ obM with scored := true }, score + 1)
  else (obM, score)

/-- The `for obstacle in &mut self.obstacle_list` loop of `State::playing`:
each obstacle moves, may score, and then `hit_obstacle` against the player
may set the mode to `End`. -/
def obstaclePass (p : Player) : List Obstacle → ℤ → GameMode → List Obstacle × ℤ × GameMode
  | [], score, mode => ([], score, mode)
  | ob :: rest, score, mode =>
    let r1 := obstacleStep p.x ob score
    let mode1 := if r1.1.hit_obstacle p then GameMode.End else mode
    let r2 := obstaclePass p rest r1.2 mode1
    (r1.1 :: r2.1, r2.2)

/-- `State::playing`: background scroll, fixed-timestep gravity, flap on
Space, the obstacle loop (move / score / collide), removal of obstacles at
x ≤ 0, distance-paced spawning, and the fell-off-bottom check. -/
def State.playing (s : State) (frame_time_ms : ℚ) (key : Option Key) (seed : ℕ) : State :=
  let s1 := s.update_background frame_time_ms
  let s2 := { s1 with frame_time := s1.frame_time + frame_time_ms }
  let s3 := if s2.frame_time > frame_duration then
      { s2 with player := s2.player.gravity_to_move, frame_time := 0 }
    else s2
  let s4 := if key = some Key.Space then { s3 with player := s3.player.flap } else s3
  let passed := obstaclePass s4.player s4.obstacle_list s4.score s4.mode
  let retained := passed.1.filter (fun ob => ob.x > 0)
  let dist := s4.distance + obstacle_speed
  let spawn := dist > (s4.settings.obstacle_distance : ℚ)
  let obs := if spawn then retained ++ [Obstacle.new screen_width passed.2.1 seed] else retained
  let mode := if s4.player.y + player_height > screen_height then GameMode.End else passed.2.2
  { s4 with
    obstacle_list := obs
    score := passed.2.1
    mode := mode
    distance := if spawn then 0 else dist }

/-- `State::end` (the `End`-mode tick): update and persist the high score if
beaten, scroll the background, then handle the P / M / Q keys. The returned
`Bool` records whether the high-score file write was performed. -/
def State.endTick (s : State) (frame_time_ms : ℚ) (key : Option Key) (seed : ℕ) : State × Bool :=
  let wrote : Bool := s.score > s.high_score
  let s1 := if s.score > s.high_score then { s with high_score := s.score } else s
  let s2 := s1.update_background frame_time_ms
  let s3 := match key with
    | some Key.P => s2.restart seed
    | some Key.M => { s2 with mode := GameMode.Menu }
    | some Key.Q => { s2 with quitting := true }
    | _ => s2
  (s3, wrote)

/-- `State::handle_menu_input`, verbatim from the source's match on the key
(the source's integer `match` on `selected_option` becomes a cascade of
equality tests). -/
def State.handle_menu_input (s : State) (key : Option Key) (seed : ℕ) : State :=
  match key with
  | none => s
  | some Key.Up =>
    if s.menu_state.selected_option > 0 then
      { s with menu_state := { s.menu_state with
          selected_option := s.menu_state.selected_option - 1 } }
    else s
  | some Key.Down =>
    let max_options : ℤ :=
      match s.menu_state.current_menu with
      | MainMenuOption.Main => 4
      | MainMenuOption.Background => 3
      | MainMenuOption.Player => 3
      | MainMenuOption.Obstacle => 1
    if s.menu_state.selected_option < max_options then
      { s with menu_state := { s.menu_state with
          selected_option := s.menu_state.selected_option + 1 } }
    else s
  | some Key.Return =>
    match s.menu_state.current_menu with
    | MainMenuOption.Main =>
      if s.menu_state.selected_option = 0 then s.restart seed
      else if s.menu_state.selected_option = 1 then
        { s with menu_state := { s.menu_state with
            current_menu := MainMenuOption.Background, selected_option := 0 } }
      else if s.menu_state.selected_option = 2 then
        { s with menu_state := { s.menu_state with
            current_menu := MainMenuOption.Player, selected_option := 0 } }
      else if s.menu_state.selected_option = 3 then
        { s with menu_state := { s.menu_state with
            current_menu := MainMenuOption.Obstacle, selected_option := 0 } }
      else if s.menu_state.selected_option = 4 then { s with quitting := true }
      else s
    | MainMenuOption.Background =>
      if s.menu_state.selected_option = 0 then
        { s with settings := { s.settings with background_style := BackgroundStyle.Stars } }
      else if s.menu_state.selected_option = 1 then
        { s with settings := { s.settings with background_style := BackgroundStyle.Clouds } }
      else if s.menu_state.selected_option = 2 then
        { s with settings := { s.settings with background_style := BackgroundStyle.Mountains } }
      else if s.menu_state.selected_option = 3 then
        { s with menu_state := { s.menu_state with
            current_menu := MainMenuOption.Main, selected_option := 1 } }
      else s
    | MainMenuOption.Player =>
      if s.menu_state.selected_option = 0 then
        { s with settings := { s.settings with player_style := PlayerStyle.Dragon } }
      else if s.menu_state.selected_option = 1 then
        { s with settings := { s.settings with player_style := PlayerStyle.Bird } }
      else if s.menu_state.selected_option = 2 then
        { s with settings := { s.settings with player_style := PlayerStyle.Duck } }
      else if s.menu_state.selected_option = 3 then
        { s with menu_state := { s.menu_state with
            current_menu := MainMenuOption.Main, selected_option := 2 } }
      else s
    | MainMenuOption.Obstacle =>
      if s.menu_state.selected_option = 1 then
        { s with menu_state := { s.menu_state with
            current_menu := MainMenuOption.Main, selected_option := 3 } }
      else s
  | some Key.Left =>
    if s.menu_state.current_menu = MainMenuOption.Obstacle ∧
        s.menu_state.selected_option = 0 then
      { s with settings := { s.settings with
          obstacle_distance := max 40 (s.settings.obstacle_distance - 5) } }
    else s
  | some Key.Right =>
    if s.menu_state.current_menu = MainMenuOption.Obstacle ∧
        s.menu_state.selected_option = 0 then
      { s with settings := { s.settings with
          obstacle_distance := min 60 (s.settings.obstacle_distance + 5) } }
    else s
  | some Key.Escape =>
    { s with menu_state := { s.menu_state with
        current_menu := MainMenuOption.Main, selected_option := 0 } }
  | some _ => s

/-- `State::main_menu`: the rendering calls are external; the state effects
are the background scroll and the menu input handling. -/
def State.main_menu (s : State) (frame_time_ms : ℚ) (key : Option Key) (seed : ℕ) : State :=
  (s.update_background frame_time_ms).handle_menu_input key seed

/-- `GameState::tick for State`: dispatch on the mode. The `Bool` is the
high-score file-write event (only an `End` tick can write). -/
def State.tick (s : State) (frame_time_ms : ℚ) (key : Option Key) (seed : ℕ) : State × Bool :=
  match s.mode with
  | GameMode.Menu => (s.main_menu frame_time_ms key seed, false)
  | GameMode.Playing => (s.playing frame_time_ms key seed, false)
  | GameMode.End => s.endTick frame_time_ms key seed

/-- The player as a `Playing` tick updates it before the obstacle loop runs:
gravity when the accumulated frame time passes the threshold, then flap on
Space (the corresponding steps of `State::playing`). -/
def playingPlayer (s : State) (frame_time_ms : ℚ) (key : Option Key) : Player :=
  let p1 := if s.frame_time + frame_time_ms > frame_duration then s.player.gravity_to_move
    else s.player
  if key = some Key.Space then p1.flap else p1

/-- The life of one obstacle across `n` consecutive `Playing`-mode ticks
(while it stays in the list): iterate the per-obstacle loop body, threading
the score. The player's x never changes during Playing mode, so it is a
constant `px`. -/
def obstacleRun (px : ℤ) : ℕ → Obstacle → ℤ → Obstacle × ℤ
  | 0, ob, score => (ob, score)
  | n + 1, ob, score =>
    obstacleRun px n (obstacleStep px ob score).1 (obstacleStep px ob score).2

/-- The per-panel maximum selectable index used by the Down arm of
`State::handle_menu_input`. -/
def menuMaxOptions : MainMenuOption → ℤ
  | MainMenuOption.Main => 4
  | MainMenuOption.Background => 3
  | MainMenuOption.Player => 3
  | MainMenuOption.Obstacle => 1

/-- The menu invariant: the selected index lies in
[0, max_options_for_current_panel]. -/
def menuInv (ms : MenuState) : Prop :=
  0 ≤ ms.selected_option ∧ ms.selected_option ≤ menuMaxOptions ms.current_menu

/-- A decoded image as the external image crate exposes it: width, height and
per-pixel RGBA lookup. -/
structure Image where
  width : ℤ
  height : ℤ
  pixel : ℤ → ℤ → ℤ × ℤ × ℤ × ℤ

/-- `State::render_looping_background`: the RGB colour written at screen cell
(x, y) -- the source samples the image at
((x + (background_offset as i32 % width)) % width, y % height) with Rust's
truncating `%`, and uses the pixel's RGB as the cell's background colour. -/
def State.render_looping_background (s : State) (background : Image) (x y : ℤ) : ℤ × ℤ × ℤ :=
  let width := background.width
  let height := background.height
  let offset := Int.tmod (i32ofRat s.background_offset) width
  let bg_x := Int.tmod (x + offset) width
  let bg_y := Int.tmod y height
  let pixel := background.pixel bg_x bg_y
  (pixel.1, pixel.2.1, pixel.2.2.1)

/-- A concrete 2x2 image used to instantiate the background-sampling
theorem. -/
def testImage : Image := { width := 2, height := 2, pixel := fun _ _ => (1, 2, 3, 4) }

/-- Overwrite only the `in_submenu` field of the menu state. -/
def setInSubmenu (s : State) (b : Bool) : State :=
  { s with menu_state := { s.menu_state with in_submenu := b } }

/-- C1 counterexample: with the obstacle column exactly at the player's left
edge (player.x = 15, obstacle.x = 15) and the player fully outside the gap,
the spec's predicate claims a collision but `hit_obstacle` returns false,
because the source tests `player.x < obstacle.x as i32` strictly. -/
theorem C1_counterexample :
    specHit { x := 15, gap_y := 40, size := 20, scored := false }
        { x := 15, y := 10, velocity := 0 } = true ∧
    Obstacle.hit_obstacle { x := 15, gap_y := 40, size := 20, scored := false }
        { x := 15, y := 10, velocity := 0 } = false := by
  constructor
  · simp only [specHit, i32ofRat, player_width, player_height]
    norm_num [show Int.tdiv 20 2 = 10 from by decide]
  · simp only [Obstacle.hit_obstacle, i32ofRat, player_width, player_height]
    norm_num [show Int.tdiv 20 2 = 10 from by decide]

/-- C1 (amended): `hit_obstacle` returns true iff the obstacle's x column lies
strictly between player.x and player.x + 14 (horizontal overlap strict on the
left) AND the vertical extent [y, y+14) is not fully contained in
[gap_y - size/2, gap_y + size/2); in particular for the player at x=10, y=10
and the obstacle at x=15, gap_y=40, size=20 it returns true. -/
theorem C1_hit_obstacle_amended :
    (∀ (ob : Obstacle) (p : Player), ob.hit_obstacle p = specHitAmended ob p) ∧
    Obstacle.hit_obstacle { x := 15, gap_y := 40, size := 20, scored := false }
        { x := 10, y := 10, velocity := 0 } = true := by
  constructor
  · intro ob p
    rw [Bool.eq_iff_iff]
    simp only [Obstacle.hit_obstacle, specHitAmended, Bool.and_eq_true,
      decide_eq_true_eq, Bool.or_eq_true]
    omega
  · simp only [Obstacle.hit_obstacle, i32ofRat, player_width, player_height]
    norm_num [show Int.tdiv 20 2 = 10 from by decide]

/-- Truncating division by 2 agrees with Euclidean division on each sign. -/
theorem tdiv_two_eq_ediv (a : ℤ) : Int.tdiv a 2 = if 0 ≤ a then a / 2 else -((-a) / 2) := by
  by_cases h : 0 ≤ a
  · rw [if_pos h, Int.tdiv_eq_ediv h (by norm_num)]
  · have h1 : Int.tdiv (-a) 2 = (-a) / 2 := Int.tdiv_eq_ediv (by omega) (by norm_num)
    have h2 : Int.tdiv (-a) 2 = -(Int.tdiv a 2) := Int.neg_tdiv a 2
    rw [if_neg h]
    omega

/-- Truncating division by 2 is monotone. -/
theorem tdiv_two_mono {a b : ℤ} (h : a ≤ b) : Int.tdiv a 2 ≤ Int.tdiv b 2 := by
  rw [tdiv_two_eq_ediv, tdiv_two_eq_ediv]
  split <;> split <;> omega

/-- C2 counterexample: (i) starting from velocity 1.9 one gravity step yields
velocity 2.1, exceeding the claimed cap 2.0; (ii) starting from velocity -2.5
(a fresh flap) the step adds `velocity as i32` = -2 (truncation toward zero)
to y, not floor(velocity) = -3: from y = 10 the code reaches y = 8, while the
claim predicts 10 + ⌊-2.3⌋ = 7. -/
theorem C2_counterexample :
    ¬ ((Player.mk 2 10 1.9).gravity_to_move.velocity ≤ 2.0) ∧
    (Player.mk 2 10 (-2.5)).gravity_to_move.y = 8 ∧
    10 + ⌊(Player.mk 2 10 (-2.5)).gravity_to_move.velocity⌋ = 7 := by
  refine ⟨?_, ?_, ?_⟩
  · simp only [Player.gravity_to_move]
    norm_num
  · simp only [Player.gravity_to_move, i32ofRat]
    norm_num
  · simp only [Player.gravity_to_move]
    norm_num

/-- C2 (amended): in every call to `Player.gravity_to_move`, for any starting
velocity, velocity increases by 0.2 exactly when it is below 2.0 and is left
unchanged otherwise (so a velocity that was ≤ 2.0 stays below 2.2, though it
may exceed 2.0); then y increases by the velocity truncated toward zero
(which is floor(velocity) for non-negative velocity), and y is clamped so
that it is never negative after the step. -/
theorem C2_gravity_to_move_amended (p : Player) :
    0 ≤ p.gravity_to_move.y ∧
    p.gravity_to_move.y = max 0 (p.y + i32ofRat p.gravity_to_move.velocity) ∧
    (0 ≤ p.gravity_to_move.velocity →
      p.gravity_to_move.y = max 0 (p.y + ⌊p.gravity_to_move.velocity⌋)) ∧
    (p.velocity < 2.0 → p.gravity_to_move.velocity = p.velocity + 0.2) ∧
    (2.0 ≤ p.velocity → p.gravity_to_move.velocity = p.velocity) ∧
    (p.velocity ≤ 2.0 → p.gravity_to_move.velocity < 2.2) := by
  simp only [Player.gravity_to_move]
  refine ⟨?_, ?_, ?_, ?_, ?_, ?_⟩
  · split <;> omega
  · split <;> omega
  · intro h0
    simp only [i32ofRat, if_pos h0]
    split <;> omega
  · intro h
    rw [if_pos h]
  · intro h
    rw [if_neg (by linarith)]
  · intro h
    split
    · norm_num
      linarith
    · norm_num
      linarith

/-- C2 witness: concrete instantiations discharging each hypothesis of the
amended gravity-step theorem. -/
theorem C2_gravity_to_move_amended_witness :
    0 ≤ (Player.mk 2 25 1.9).gravity_to_move.y ∧
    (Player.mk 2 25 1.9).gravity_to_move.velocity = 1.9 + 0.2 ∧
    (Player.mk 2 25 1.9).gravity_to_move.velocity < 2.2 ∧
    (Player.mk 2 25 2.0).gravity_to_move.velocity = 2.0 ∧
    (0 ≤ (Player.mk 2 25 1.9).gravity_to_move.velocity →
      (Player.mk 2 25 1.9).gravity_to_move.y =
        max 0 (25 + ⌊(Player.mk 2 25 1.9).gravity_to_move.velocity⌋)) :=
  ⟨(C2_gravity_to_move_amended _).1,
   (C2_gravity_to_move_amended ⟨2, 25, 1.9⟩).2.2.2.1 (by norm_num),
   (C2_gravity_to_move_amended ⟨2, 25, 1.9⟩).2.2.2.2.2 (by norm_num),
   (C2_gravity_to_move_amended ⟨2, 25, 2.0⟩).2.2.2.2.1 (by norm_num),
   fun h => (C2_gravity_to_move_amended ⟨2, 25, 1.9⟩).2.2.1 h⟩

/-- C3: `Obstacle::new(x, s)` produces size = max(20, 40 - s/2) (Rust
truncating division) and gap_y in [30, 60); hence size ≥ 20 always, size is
non-increasing in the score, size = 40 at score 0 and size = 20 at
score 50. -/
theorem C3_obstacle_new (x score : ℤ) (seed : ℕ) :
    (Obstacle.new x score seed).size = max 20 (40 - Int.tdiv score 2) ∧
    30 ≤ (Obstacle.new x score seed).gap_y ∧
    (Obstacle.new x score seed).gap_y < 60 ∧
    20 ≤ (Obstacle.new x score seed).size ∧
    (∀ (s2 : ℤ) (seed2 : ℕ), score ≤ s2 →
      (Obstacle.new x s2 seed2).size ≤ (Obstacle.new x score seed).size) ∧
    (Obstacle.new x 0 seed).size = 40 ∧
    (Obstacle.new x 50 seed).size = 20 := by
  have hgap : (Obstacle.new x score seed).gap_y = 30 + (seed : ℤ) % 30 := rfl
  have hmod : 0 ≤ (seed : ℤ) % 30 ∧ (seed : ℤ) % 30 < 30 := by
    constructor
    · exact Int.emod_nonneg _ (by norm_num)
    · exact Int.emod_lt_of_pos _ (by norm_num)
  refine ⟨rfl, ?_, ?_, ?_, ?_, ?_, ?_⟩
  · rw [hgap]; omega
  · rw [hgap]; omega
  · simp only [Obstacle.new]
    omega
  · intro s2 seed2 h
    simp only [Obstacle.new]
    have := tdiv_two_mono h
    omega
  · simp only [Obstacle.new]
    decide
  · simp only [Obstacle.new]
    decide

/-- C3 witness: the monotonicity hypothesis discharged at score 0 ≤ 50. -/
theorem C3_obstacle_new_witness :
    (30 ≤ (Obstacle.new 120 0 0).gap_y ∧ (Obstacle.new 120 0 0).gap_y < 60) ∧
    (Obstacle.new 120 0 0).size = 40 ∧
    (Obstacle.new 120 50 1).size ≤ (Obstacle.new 120 0 0).size :=
  ⟨⟨(C3_obstacle_new 120 0 0).2.1, (C3_obstacle_new 120 0 0).2.2.1⟩,
   (C3_obstacle_new 120 0 0).2.2.2.2.2.1,
   (C3_obstacle_new 120 0 0).2.2.2.2.1 50 1 (by norm_num)⟩

/-- A `Playing` tick changes the player exactly by `playingPlayer`. -/
theorem playing_player_eq (s : State) (ft : ℚ) (key : Option Key) (seed : ℕ) :
    (s.playing ft key seed).player = playingPlayer s ft key := by
  simp only [State.playing, State.update_background, playingPlayer]
  split <;> split <;> rfl

/-- The obstacle loop ends in `End` mode iff it started there or some obstacle,
after its move, collides with the player (the scoring flag set inside the loop
does not affect the collision test). -/
theorem obstaclePass_mode (p : Player) (l : List Obstacle) (score : ℤ) (mode : GameMode) :
    ((obstaclePass p l score mode).2.2 = GameMode.End ↔
      (mode = GameMode.End ∨ ∃ ob ∈ l, ob.render.hit_obstacle p = true)) := by
  induction l generalizing score mode with
  | nil => simp [obstaclePass]
  | cons ob rest ih =>
    have hhit : ∀ sc, (obstacleStep p.x ob sc).1.hit_obstacle p = ob.render.hit_obstacle p := by
      intro sc
      simp only [obstacleStep]
      split <;> rfl
    simp only [obstaclePass, List.mem_cons]
    rw [ih, hhit]
    by_cases hc : ob.render.hit_obstacle p = true <;> simp [hc]

/-- C5: a `Playing`-mode tick sets the mode to `End` iff some obstacle (after
its move this tick) collides with the (post-gravity, post-flap) player, or the
player's bottom edge y + 14 exceeds the screen height 80; in particular there
is no transition to `End` for flying above the top of the screen. -/
theorem C5_playing_end_iff (s : State) (ft : ℚ) (key : Option Key) (seed : ℕ)
    (h : s.mode = GameMode.Playing) :
    ((s.playing ft key seed).mode = GameMode.End ↔
      ((∃ ob ∈ s.obstacle_list,
          ob.render.hit_obstacle (playingPlayer s ft key) = true) ∨
        (playingPlayer s ft key).y + player_height > screen_height)) := by
  have hpl :
      (s.playing ft key seed).mode =
        (if (playingPlayer s ft key).y + player_height > screen_height then GameMode.End
         else (obstaclePass (playingPlayer s ft key) s.obstacle_list s.score s.mode).2.2) := by
    simp only [State.playing, State.update_background, playingPlayer]
    split <;> split <;> rfl
  rw [hpl]
  split
  · rename_i hb
    simp [hb]
  · rename_i hb
    rw [obstaclePass_mode, h]
    simp [hb]

/-- C5 witness: the theorem instantiated at a concrete `Playing` state (the
fresh game state restarted from the initial one). -/
theorem C5_playing_end_iff_witness :
    (((State.new 0 0).restart 0).playing 80 none 0).mode = GameMode.End ↔
      ((∃ ob ∈ ((State.new 0 0).restart 0).obstacle_list,
          ob.render.hit_obstacle (playingPlayer ((State.new 0 0).restart 0) 80 none) = true) ∨
        (playingPlayer ((State.new 0 0).restart 0) 80 none).y + player_height > screen_height) :=
  C5_playing_end_iff ((State.new 0 0).restart 0) 80 none 0 rfl

/-- C10: `player.x` is never modified after construction: a `Playing`-mode
tick leaves it unchanged (gravity, flap, scoring, collision and spawning never
touch it), and construction / restart set it to 2. -/
theorem C10_player_x_frame (s : State) (ft : ℚ) (key : Option Key) (seed : ℕ) (p : Player) :
    (s.playing ft key seed).player.x = s.player.x ∧
    (s.restart seed).player.x = 2 ∧
    p.gravity_to_move.x = p.x ∧
    p.flap.x = p.x ∧
    (Player.new 2 25).x = 2 := by
  refine ⟨?_, rfl, rfl, rfl, rfl⟩
  rw [playing_player_eq]
  simp only [playingPlayer]
  split <;> split <;> rfl

/-- For a positive integer bound, comparing against the truncation of a
rational agrees with comparing against the rational itself. -/
theorem i32ofRat_lt_iff {q : ℚ} {px : ℤ} (h : 1 ≤ px) :
    i32ofRat q < px ↔ q < (px : ℚ) := by
  unfold i32ofRat
  split
  · exact Int.floor_lt
  · rename_i h0
    push_neg at h0
    have hpx0 : (0 : ℚ) < (px : ℚ) := by exact_mod_cast (by omega : (0 : ℤ) < px)
    have hq : q < (px : ℚ) := lt_trans h0 hpx0
    have hfl : 0 ≤ ⌊-q⌋ := Int.floor_nonneg.mpr (by linarith)
    constructor
    · intro _
      exact hq
    · intro _
      omega

/-- One loop body: the scored flag afterwards is the old flag or the test
"player.x exceeds the obstacle's x after its move", the obstacle moved left
by the obstacle speed, and the score grew by 1 exactly on a false-to-true
transition. -/
theorem obstacleStep_scored (px : ℤ) (h : 1 ≤ px) (ob : Obstacle) (score : ℤ) :
    ((obstacleStep px ob score).1.scored = true ↔
      (ob.scored = true ∨ ob.x - obstacle_speed < (px : ℚ))) ∧
    (obstacleStep px ob score).1.x = ob.x - obstacle_speed ∧
    ((obstacleStep px ob score).2 =
      if ob.scored = false ∧ (obstacleStep px ob score).1.scored = true then score + 1
      else score) := by
  simp only [obstacleStep, Obstacle.render]
  split
  · rename_i hcond
    obtain ⟨h1, h2⟩ := hcond
    rw [gt_iff_lt, i32ofRat_lt_iff h] at h1
    simp [h2, h1]
  · rename_i hcond
    rw [Decidable.not_and_iff_or_not] at hcond
    rcases hcond with hc | hc
    · rw [gt_iff_lt, i32ofRat_lt_iff h] at hc
      push_neg at hc
      constructor
      · constructor
        · intro hs
          exact Or.inl hs
        · intro hs
          rcases hs with hs | hs
          · exact hs
          · exact absurd hs (by exact not_lt.mpr hc)
      · simp
    · simp only [Bool.not_eq_false] at hc
      simp [hc]

/-- A scored obstacle stays scored through a loop body. -/
theorem obstacleStep_keeps_scored (px : ℤ) (ob : Obstacle) (score : ℤ)
    (h : ob.scored = true) : (obstacleStep px ob score).1.scored = true := by
  simp only [obstacleStep, Obstacle.render]
  split <;> simp [h]

/-- One loop body changes the score by 1 exactly when the scored flag
transitions from false to true, and by 0 otherwise. -/
theorem obstacleStep_score (px : ℤ) (ob : Obstacle) (score : ℤ) :
    (obstacleStep px ob score).2 =
      if ob.scored = false ∧ (obstacleStep px ob score).1.scored = true then score + 1
      else score := by
  simp only [obstacleStep, Obstacle.render]
  split
  · rename_i hc
    simp [hc.2]
  · rename_i hc
    by_cases hb : ob.scored = true <;> simp [hb]

/-- An already-scored obstacle keeps its flag and contributes nothing to the
score over any number of ticks. -/
theorem obstacleRun_already_scored (px : ℤ) (n : ℕ) :
    ∀ (ob : Obstacle) (score : ℤ), ob.scored = true →
      (obstacleRun px n ob score).1.scored = true ∧
      (obstacleRun px n ob score).2 = score := by
  induction n with
  | zero =>
    intro ob score h
    exact ⟨h, rfl⟩
  | succ n ih =>
    intro ob score h
    have h1 := obstacleStep_keeps_scored px ob score h
    have h2 : (obstacleStep px ob score).2 = score := by
      rw [obstacleStep_score]
      simp [h]
    rw [obstacleRun, h2]
    exact ih _ _ h1

/-- After n ticks the scored flag is set iff it was set initially or the
player's x exceeded the obstacle's (post-move) x on some earlier tick. -/
theorem obstacleRun_scored (px : ℤ) (h : 1 ≤ px) (n : ℕ) :
    ∀ (ob : Obstacle) (score : ℤ),
      ((obstacleRun px n ob score).1.scored = true ↔
        (ob.scored = true ∨
          ∃ k < n, ob.x - ((k : ℚ) + 1) * obstacle_speed < (px : ℚ))) := by
  induction n with
  | zero =>
    intro ob score
    simp [obstacleRun]
  | succ n ih =>
    intro ob score
    rw [obstacleRun, ih]
    obtain ⟨hsc, hx, _⟩ := obstacleStep_scored px h ob score
    rw [hsc, hx]
    constructor
    · rintro (hs | ⟨k, hk, hlt⟩)
      · rcases hs with hs | hs
        · exact Or.inl hs
        · refine Or.inr ⟨0, by omega, ?_⟩
          push_cast
          simp only [obstacle_speed] at hs ⊢
          linarith
      · refine Or.inr ⟨k + 1, by omega, ?_⟩
        push_cast at hlt ⊢
        simp only [obstacle_speed] at hlt ⊢
        linarith
    · rintro (hs | ⟨k, hk, hlt⟩)
      · exact Or.inl (Or.inl hs)
      · cases k with
        | zero =>
          refine Or.inl (Or.inr ?_)
          push_cast at hlt
          simp only [obstacle_speed] at hlt ⊢
          linarith
        | succ k2 =>
          refine Or.inr ⟨k2, by omega, ?_⟩
          push_cast at hlt ⊢
          simp only [obstacle_speed] at hlt ⊢
          linarith

/-- Over any number of ticks, an obstacle contributes exactly 1 to the score
if its flag transitions from false to true during the run, and 0 otherwise. -/
theorem obstacleRun_score (px : ℤ) (n : ℕ) :
    ∀ (ob : Obstacle) (score : ℤ),
      (obstacleRun px n ob score).2 =
        if ob.scored = false ∧ (obstacleRun px n ob score).1.scored = true then score + 1
        else score := by
  induction n with
  | zero =>
    intro ob score
    cases h : ob.scored <;> simp [obstacleRun, h]
  | succ n ih =>
    intro ob score
    rw [obstacleRun]
    by_cases hs : ob.scored = true
    · have h1 := obstacleStep_keeps_scored px ob score hs
      have h2 : (obstacleStep px ob score).2 = score := by
        rw [obstacleStep_score]
        simp [hs]
      rw [h2]
      obtain ⟨hf, hsc⟩ := obstacleRun_already_scored px n _ _ h1
      rw [hsc]
      simp [hs]
    · have hs' : ob.scored = false := by
        cases h : ob.scored
        · rfl
        · exact absurd h hs
      by_cases hc : (obstacleStep px ob score).1.scored = true
      · have h2 : (obstacleStep px ob score).2 = score + 1 := by
          rw [obstacleStep_score]
          simp [hs', hc]
        rw [h2]
        obtain ⟨hf, hsc⟩ := obstacleRun_already_scored px n _ _ hc
        rw [hsc]
        simp [hs', hf]
      · have hc' : (obstacleStep px ob score).1.scored = false := by
          cases h : (obstacleStep px ob score).1.scored
          · rfl
          · exact absurd h hc
        have h2 : (obstacleStep px ob score).2 = score := by
          rw [obstacleStep_score]
          simp [hc']
        rw [h2, ih]
        simp [hs', hc']

/-- C4: per `Playing` tick an unscored obstacle becomes scored exactly when
the player's x first exceeds the obstacle's (post-move) x, incrementing the
score by 1; across any run of ticks the flag transitions false-to-true at
most once (the total score contribution is 1 on a transition and 0
otherwise), and an already-scored obstacle never increments the score. -/
theorem C4_scoring (px : ℤ) (hpx : 1 ≤ px) (ob : Obstacle) (score : ℤ) (n : ℕ) :
    ((obstacleStep px ob score).1.scored = true ↔
      (ob.scored = true ∨ ob.x - obstacle_speed < (px : ℚ))) ∧
    ((obstacleStep px ob score).2 =
      if ob.scored = false ∧ (obstacleStep px ob score).1.scored = true then score + 1
      else score) ∧
    ((obstacleRun px n ob score).1.scored = true ↔
      (ob.scored = true ∨
        ∃ k < n, ob.x - ((k : ℚ) + 1) * obstacle_speed < (px : ℚ))) ∧
    ((obstacleRun px n ob score).2 =
      if ob.scored = false ∧ (obstacleRun px n ob score).1.scored = true then score + 1
      else score) ∧
    (ob.scored = true →
      (obstacleRun px n ob score).1.scored = true ∧ (obstacleRun px n ob score).2 = score) :=
  ⟨(obstacleStep_scored px hpx ob score).1, obstacleStep_score px ob score,
   obstacleRun_scored px hpx n ob score, obstacleRun_score px n ob score,
   obstacleRun_already_scored px n ob score⟩

/-- C4 witness: the run-score accounting at player x = 2 for a fresh obstacle,
and the no-further-increment fact for an already-scored one. -/
theorem C4_scoring_witness :
    ((obstacleRun 2 5 (Obstacle.mk 3 40 20 false) 0).2 =
      if (Obstacle.mk 3 40 20 false).scored = false ∧
          (obstacleRun 2 5 (Obstacle.mk 3 40 20 false) 0).1.scored = true then 0 + 1
      else 0) ∧
    (obstacleRun 2 5 (Obstacle.mk 3 40 20 true) 0).2 = 0 :=
  ⟨(C4_scoring 2 (by decide) (Obstacle.mk 3 40 20 false) 0 5).2.2.2.1,
   ((C4_scoring 2 (by decide) (Obstacle.mk 3 40 20 true) 0 5).2.2.2.2 rfl).2⟩

/-- One key event through `handle_menu_input` preserves the menu invariant. -/
theorem handle_menu_input_inv (s : State) (key : Option Key) (seed : ℕ)
    (h : menuInv s.menu_state) : menuInv (s.handle_menu_input key seed).menu_state := by
  obtain ⟨pl, ftm, mo, sc, ol, bo, di, ⟨cm, so, sub⟩, se, hs, qu⟩ := s
  simp only [menuInv, menuMaxOptions] at h ⊢
  cases key with
  | none => exact h
  | some k =>
    cases k <;> cases cm <;>
      simp only [State.handle_menu_input, State.restart, menuMaxOptions] <;>
      first
      | (split_ifs <;> simp_all <;> omega)
      | simp_all

/-- C6: under every sequence of key events processed by `handle_menu_input`,
the selected index stays within [0, max_options_for_current_panel], the
maximum being 4 for the Main panel, 3 for Background, 3 for Player and 1 for
Obstacle. -/
theorem C6_menu_selected_in_range (s : State) (events : List (Option Key × ℕ))
    (h : menuInv s.menu_state) :
    menuInv ((events.foldl (fun st e => st.handle_menu_input e.1 e.2) s).menu_state) := by
  induction events generalizing s with
  | nil => exact h
  | cons e rest ih => exact ih _ (handle_menu_input_inv _ e.1 e.2 h)

/-- C6 witness: the invariant holds for the freshly constructed state and is
carried through a concrete key sequence. -/
theorem C6_menu_selected_in_range_witness :
    menuInv (State.new 0 0).menu_state ∧
    menuInv (([(some Key.Down, 0), (some Key.Return, 0)].foldl
      (fun st e => st.handle_menu_input e.1 e.2) (State.new 0 0)).menu_state) := by
  have h0 : menuInv (State.new 0 0).menu_state := by
    simp [State.new, menuInv, menuMaxOptions]
  exact ⟨h0,
    C6_menu_selected_in_range (State.new 0 0) [(some Key.Down, 0), (some Key.Return, 0)] h0⟩

/-- An `End` tick updates the high score to the maximum of the old one and
the score, whatever key arrives. -/
theorem endTick_high_score (s : State) (ft : ℚ) (key : Option Key) (seed : ℕ) :
    (s.endTick ft key seed).1.high_score =
      if s.score > s.high_score then s.score else s.high_score := by
  cases key with
  | none =>
    simp only [State.endTick, State.update_background]
    split <;> rfl
  | some k =>
    cases k <;> simp only [State.endTick, State.update_background, State.restart] <;>
      split <;> rfl

/-- An `End` tick without a key press leaves the score unchanged. -/
theorem endTick_score_none (s : State) (ft : ℚ) (seed : ℕ) :
    (s.endTick ft none seed).1.score = s.score := by
  simp only [State.endTick, State.update_background]
  split <;> rfl

/-- The file-write event of an `End` tick is exactly the test
score > high_score. -/
theorem endTick_wrote (s : State) (ft : ℚ) (key : Option Key) (seed : ℕ) :
    (s.endTick ft key seed).2 = decide (s.score > s.high_score) := rfl

/-- C7: after every `End`-mode tick the high score equals
max(previous high score, score); the high-score file write happens iff the
score strictly exceeds the previous high score; and a second `End` tick (no
key pressed in between) never writes again, so the write happens at most once
per entry into `End` mode. -/
theorem C7_end_high_score (s : State) (ft ft2 : ℚ) (key : Option Key) (seed seed2 : ℕ) :
    ((s.endTick ft key seed).1.high_score = max s.high_score s.score) ∧
    ((s.endTick ft key seed).2 = true ↔ s.score > s.high_score) ∧
    (((s.endTick ft none seed).1.endTick ft2 none seed2).2 = false) := by
  refine ⟨?_, ?_, ?_⟩
  · rw [endTick_high_score]
    split <;> omega
  · rw [endTick_wrote, decide_eq_true_eq]
  · rw [endTick_wrote, decide_eq_false_iff_not, endTick_score_none, endTick_high_score]
    split <;> omega

/-- On screen cells (x, y ≥ 0) with a well-formed image and a non-negative
offset, the pre-reduction of the offset by `% width` is invisible: the cell
samples the image at ((x + floor(offset)) mod width, y mod height). -/
theorem render_looping_background_formula (s : State) (bg : Image) (x y : ℤ)
    (hw : 0 < bg.width) (hh : 0 < bg.height) (hoff : 0 ≤ s.background_offset)
    (hx : 0 ≤ x) (hy : 0 ≤ y) :
    s.render_looping_background bg x y =
      ((bg.pixel ((x + ⌊s.background_offset⌋) % bg.width) (y % bg.height)).1,
       (bg.pixel ((x + ⌊s.background_offset⌋) % bg.width) (y % bg.height)).2.1,
       (bg.pixel ((x + ⌊s.background_offset⌋) % bg.width) (y % bg.height)).2.2.1) := by
  simp only [State.render_looping_background]
  have hfl : i32ofRat s.background_offset = ⌊s.background_offset⌋ := if_pos hoff
  rw [hfl]
  have hw' : (0 : ℤ) ≤ bg.width := le_of_lt hw
  have hf0 : 0 ≤ ⌊s.background_offset⌋ := Int.floor_nonneg.mpr hoff
  rw [Int.tmod_eq_emod hf0 hw']
  have hfm0 : 0 ≤ ⌊s.background_offset⌋ % bg.width := Int.emod_nonneg _ (by omega)
  rw [Int.tmod_eq_emod (by omega) hw']
  rw [Int.tmod_eq_emod hy (le_of_lt hh)]
  have hsame : (x + ⌊s.background_offset⌋ % bg.width) % bg.width =
      (x + ⌊s.background_offset⌋) % bg.width := by
    conv_lhs => rw [Int.add_emod]
    conv_rhs => rw [Int.add_emod]
    rw [Int.emod_emod_of_dvd _ dvd_rfl]
  rw [hsame]

/-- C8: every screen cell (x, y) samples the background image at
((x + offset) mod image_width, y mod image_height); the rendered output is
periodic in the offset with period image_width, and offset = image_width
renders identically to offset = 0. -/
theorem C8_render_looping_background (s : State) (bg : Image) (x y : ℤ)
    (hw : 0 < bg.width) (hh : 0 < bg.height) (hoff : 0 ≤ s.background_offset)
    (hx : 0 ≤ x) (hy : 0 ≤ y) :
    (s.render_looping_background bg x y =
      ((bg.pixel ((x + ⌊s.background_offset⌋) % bg.width) (y % bg.height)).1,
       (bg.pixel ((x + ⌊s.background_offset⌋) % bg.width) (y % bg.height)).2.1,
       (bg.pixel ((x + ⌊s.background_offset⌋) % bg.width) (y % bg.height)).2.2.1)) ∧
    ({ s with background_offset := s.background_offset + (bg.width : ℚ)
      }.render_looping_background bg x y = s.render_looping_background bg x y) ∧
    ({ s with background_offset := (bg.width : ℚ) }.render_looping_background bg x y =
      { s with background_offset := 0 }.render_looping_background bg x y) := by
  refine ⟨render_looping_background_formula s bg x y hw hh hoff hx hy, ?_, ?_⟩
  · have hoff2 : (0 : ℚ) ≤ s.background_offset + (bg.width : ℚ) := by
      have hwq : (0 : ℚ) ≤ (bg.width : ℚ) := by exact_mod_cast hw.le
      linarith
    rw [render_looping_background_formula _ bg x y hw hh hoff2 hx hy,
      render_looping_background_formula s bg x y hw hh hoff hx hy]
    simp only
    rw [Int.floor_add_int]
    have : x + (⌊s.background_offset⌋ + bg.width) = (x + ⌊s.background_offset⌋) + bg.width * 1 := by
      ring
    rw [this, Int.add_mul_emod_self_left]
  · have hoffw : (0 : ℚ) ≤ ((bg.width : ℤ) : ℚ) := by exact_mod_cast hw.le
    rw [render_looping_background_formula _ bg x y hw hh hoffw hx hy,
      render_looping_background_formula _ bg x y hw hh le_rfl hx hy]
    simp only
    rw [Int.floor_intCast, show ((0:ℚ)) = ((0:ℤ):ℚ) by norm_num, Int.floor_intCast]
    have : x + bg.width = (x + 0) + bg.width * 1 := by ring
    rw [this, Int.add_mul_emod_self_left]

/-- C8 witness: the sampling formula and both periodicity identities at the
fresh state (offset 0), cell (0, 0) and a concrete 2x2 image. -/
theorem C8_render_looping_background_witness :
    ((State.new 0 0).render_looping_background testImage 0 0 =
      ((testImage.pixel ((0 + ⌊(State.new 0 0).background_offset⌋) % testImage.width)
          (0 % testImage.height)).1,
       (testImage.pixel ((0 + ⌊(State.new 0 0).background_offset⌋) % testImage.width)
          (0 % testImage.height)).2.1,
       (testImage.pixel ((0 + ⌊(State.new 0 0).background_offset⌋) % testImage.width)
          (0 % testImage.height)).2.2.1)) ∧
    ({ State.new 0 0 with background_offset :=
        (State.new 0 0).background_offset + (testImage.width : ℚ)
      }.render_looping_background testImage 0 0 =
      (State.new 0 0).render_looping_background testImage 0 0) ∧
    ({ State.new 0 0 with background_offset := (testImage.width : ℚ)
      }.render_looping_background testImage 0 0 =
      { State.new 0 0 with background_offset := 0 }.render_looping_background testImage 0 0) :=
  C8_render_looping_background (State.new 0 0) testImage 0 0
    (by norm_num [testImage]) (by norm_num [testImage])
    (by norm_num [State.new]) le_rfl le_rfl

/-- A `Playing` tick commutes with overwriting `in_submenu`. -/
theorem playing_setInSubmenu (s : State) (ft : ℚ) (key : Option Key) (seed : ℕ) (b : Bool) :
    (setInSubmenu s b).playing ft key seed = setInSubmenu (s.playing ft key seed) b := by
  obtain ⟨pl, ftm, mo, sc, ol, bo, di, ⟨cm, so, sub⟩, se, hs, qu⟩ := s
  simp only [State.playing, State.update_background, setInSubmenu]
  split_ifs <;> rfl

/-- A `Menu` tick commutes with overwriting `in_submenu`. -/
theorem main_menu_setInSubmenu (s : State) (ft : ℚ) (key : Option Key) (seed : ℕ) (b : Bool) :
    (setInSubmenu s b).main_menu ft key seed = setInSubmenu (s.main_menu ft key seed) b := by
  obtain ⟨pl, ftm, mo, sc, ol, bo, di, ⟨cm, so, sub⟩, se, hs, qu⟩ := s
  cases key with
  | none =>
    simp only [State.main_menu, State.handle_menu_input, State.update_background,
      setInSubmenu]
  | some k =>
    cases k <;> cases cm <;>
      simp only [State.main_menu, State.handle_menu_input, State.update_background,
        State.restart, setInSubmenu] <;>
      first
      | rfl
      | (split_ifs <;> rfl)

/-- An `End` tick commutes with overwriting `in_submenu` and its file-write
event ignores it. -/
theorem endTick_setInSubmenu (s : State) (ft : ℚ) (key : Option Key) (seed : ℕ) (b : Bool) :
    (setInSubmenu s b).endTick ft key seed =
      (setInSubmenu (s.endTick ft key seed).1 b, (s.endTick ft key seed).2) := by
  obtain ⟨pl, ftm, mo, sc, ol, bo, di, ⟨cm, so, sub⟩, se, hs, qu⟩ := s
  cases key with
  | none =>
    simp only [State.endTick, State.update_background, State.restart, setInSubmenu]
    first
    | rfl
    | (split_ifs <;> rfl)
  | some k =>
    cases k <;>
      simp only [State.endTick, State.update_background, State.restart, setInSubmenu] <;>
      first
      | rfl
      | (split_ifs <;> rfl)

/-- A `Playing` tick never touches the menu state at all. -/
theorem playing_menu_state (s : State) (ft : ℚ) (key : Option Key) (seed : ℕ) :
    (s.playing ft key seed).menu_state = s.menu_state := by
  obtain ⟨pl, ftm, mo, sc, ol, bo, di, ⟨cm, so, sub⟩, se, hs, qu⟩ := s
  simp only [State.playing, State.update_background]
  split_ifs <;> rfl

/-- A `Menu` tick never writes `in_submenu`. -/
theorem main_menu_in_submenu (s : State) (ft : ℚ) (key : Option Key) (seed : ℕ) :
    (s.main_menu ft key seed).menu_state.in_submenu = s.menu_state.in_submenu := by
  obtain ⟨pl, ftm, mo, sc, ol, bo, di, ⟨cm, so, sub⟩, se, hs, qu⟩ := s
  cases key with
  | none =>
    simp only [State.main_menu, State.handle_menu_input, State.update_background]
  | some k =>
    cases k <;> cases cm <;>
      simp only [State.main_menu, State.handle_menu_input, State.update_background,
        State.restart] <;>
      first
      | rfl
      | (split_ifs <;> rfl)

/-- An `End` tick never writes `in_submenu`. -/
theorem endTick_in_submenu (s : State) (ft : ℚ) (key : Option Key) (seed : ℕ) :
    (s.endTick ft key seed).1.menu_state.in_submenu = s.menu_state.in_submenu := by
  obtain ⟨pl, ftm, mo, sc, ol, bo, di, ⟨cm, so, sub⟩, se, hs, qu⟩ := s
  cases key with
  | none =>
    simp only [State.endTick, State.update_background, State.restart]
    first
    | rfl
    | (split_ifs <;> rfl)
  | some k =>
    cases k <;>
      simp only [State.endTick, State.update_background, State.restart] <;>
      first
      | rfl
      | (split_ifs <;> rfl)

/-- C9: the `in_submenu` field is dead state: every tick (any mode, any key
event) started from a state with `in_submenu` overwritten produces the same
successor state up to the same overwrite and the same file-write event, and
no tick ever changes the field. -/
theorem C9_in_submenu_dead (s : State) (ft : ℚ) (key : Option Key) (seed : ℕ) (b : Bool) :
    ((setInSubmenu s b).tick ft key seed =
      (setInSubmenu (s.tick ft key seed).1 b, (s.tick ft key seed).2)) ∧
    (s.tick ft key seed).1.menu_state.in_submenu = s.menu_state.in_submenu := by
  obtain ⟨pl, ftm, mo, sc, ol, bo, di, ⟨cm, so, sub⟩, se, hs, qu⟩ := s
  cases mo with
  | Menu =>
    exact ⟨Prod.ext (main_menu_setInSubmenu _ ft key seed b) rfl,
      main_menu_in_submenu _ ft key seed⟩
  | Playing =>
    exact ⟨Prod.ext (playing_setInSubmenu _ ft key seed b) rfl,
      congrArg MenuState.in_submenu (playing_menu_state _ ft key seed)⟩
  | End =>
    exact ⟨endTick_setInSubmenu _ ft key seed b, endTick_in_submenu _ ft key seed⟩
